import Mathlib

/-!
The ricky command-line tool: paginated fetch, filter splitting and the
appearances count.

A shallow embedding of `main.go`.  Go strings are modelled as lists of
characters, the network and the JSON decoder are parameters of the model, and
the observable effects of a run (the URLs handed to `http.Get`, the lines and
tables written to standard output) are recorded in an explicit `World`.
-/

set_option maxRecDepth 100000

namespace Ricky

/-- Go `string`, as the list of its characters. -/
abbrev Str := List Char

/-! ## Library functions used by the program -/

/-- Go `strings.Split(s, sep)` for a one-character separator: the pieces of `s`
between consecutive occurrences of `sep`; always at least one piece. -/
def Split (s : Str) (sep : Char) : List Str :=
  match s with
  | [] => [[]]
  | c :: cs =>
    if c = sep then [] :: Split cs sep
    else
      match Split cs sep with
      | [] => [[c]]
      | piece :: rest => (c :: piece) :: rest

/-- Go `strings.Contains(s, substr)`: `substr` occurs in `s` as a contiguous
block. -/
def Contains (s substr : Str) : Bool :=
  s.tails.any (fun t => substr.isPrefixOf t)

/-- Decimal rendering of a Go `int` as done by the `%d` verb and by
`fmt.Println` on an integer. -/
def fmtInt (i : Int) : Str :=
  if i < 0 then '-' :: Nat.toDigits 10 i.natAbs else Nat.toDigits 10 i.toNat

/-- Two's complement wrap-around of a 64-bit Go `int`. -/
def wrapInt64 (x : Int) : Int :=
  (x + 2 ^ 63) % 2 ^ 64 - 2 ^ 63

/-! ## Data model (lines 15-40) -/

/-- The `Character` struct (the field `Type` is spelled `Type_`, the plain word
being reserved). -/
structure Character where
  Gender : Str
  ID : Int
  Name : Str
  Species : Str
  Status : Str
  Type_ : Str
deriving DecidableEq, Repr

/-- The `Episode` struct. -/
structure Episode where
  Characters : List Str
  ID : Int
  Name : Str
deriving DecidableEq, Repr

/-- The `Filter` struct; `Filter{}` has both fields empty. -/
structure Filter where
  Key : Str
  Value : Str
deriving DecidableEq, Repr

/-- The `Location` struct. -/
structure Location where
  Dimension : Str
  ID : Int
  Name : Str
  Type_ : Str
deriving DecidableEq, Repr

/-! ## Filter splitting (lines 177-182, 233-238, 279-284) -/

/-- The three statements `parts := strings.Split(filter, "=")`,
`key := parts[0]`, `value := parts[1]` followed by the construction of
`Filter{Key: key, Value: value}`.  `none` is the run-time panic of an index out
of range. -/
def splitFilter (filter : Str) : Option Filter :=
  let parts := Split filter '='
  match parts[0]? with
  | none => none
  | some key =>
    match parts[1]? with
    | none => none
    | some value => some ⟨key, value⟩

/-! ## The outside world -/

/-- One thing written to standard output: a line of `fmt.Println`, or a table of
the `table` package handed to `Print` (its header and its rows of cells). -/
inductive Out where
  | line (text : Str)
  | table (header : List Str) (rows : List (List Str))
deriving DecidableEq, Repr

/-- The observable effects of a run so far, oldest first: the URLs passed to
`http.Get` and what was written to standard output. -/
structure World where
  requests : List Str
  stdout : List Out
deriving DecidableEq, Repr

/-- Record a call of `http.Get(url)`. -/
def World.get (w : World) (url : Str) : World :=
  ⟨w.requests ++ [url], w.stdout⟩

/-- Record a call of `fmt.Println` that writes the line `text`. -/
def World.println (w : World) (text : Str) : World :=
  ⟨w.requests, w.stdout ++ [Out.line text]⟩

/-- Record a call of `tbl.Print()`. -/
def World.printTable (w : World) (header : List Str) (rows : List (List Str)) : World :=
  ⟨w.requests, w.stdout ++ [Out.table header rows]⟩

/-- The collaborators of the program: the upstream server behind `http.Get`
(an error message for a transport failure, else the response body) and the JSON
decoding of a body into the `results` field, one decoder per entity type (an
error message for a body that does not decode). -/
structure Env where
  httpGet : Str → Except Str Str
  decodeCharacters : Str → Except Str (List Character)
  decodeEpisodes : Str → Except Str (List Episode)
  decodeLocations : Str → Except Str (List Location)

/-! ## The fetchers (lines 42-158) -/

/-- The URL built on lines 46-52 of `getCharacters`. -/
def characterURL (filter : Filter) (page : Int) : Str :=
  if filter.Key = [] then
    "https://rickandmortyapi.com/api/character/?page=".toList ++ fmtInt page
  else
    "https://rickandmortyapi.com/api/character/?page=".toList ++ fmtInt page
      ++ "&".toList ++ filter.Key ++ "=".toList ++ filter.Value

/-- The URL built on line 88 of `getEpisodes`. -/
def episodeURL (page : Int) : Str :=
  "https://rickandmortyapi.com/api/episode/?page=".toList ++ fmtInt page

/-- The URL built on lines 122-128 of `getLocations`. -/
def locationURL (filter : Filter) (page : Int) : Str :=
  if filter.Key = [] then
    "https://rickandmortyapi.com/api/location/?page=".toList ++ fmtInt page
  else
    "https://rickandmortyapi.com/api/location/?page=".toList ++ fmtInt page
      ++ "&".toList ++ filter.Key ++ "=".toList ++ filter.Value

/-- The loop `for page := 1; ; page++` shared, up to the URL and the entity
type, by the three fetchers.  One unit of `fuel` is one iteration; the result
is `none` when the fuel runs out before the loop is left, `some xs` when the
function returns the slice `xs` (`nil` is the empty list). -/
def fetchPages {α : Type} (httpGet : Str → Except Str Str)
    (decode : Str → Except Str (List α)) (url : Int → Str) :
    Nat → Int → List α → World → Option (List α) × World
  | 0, _, _, w => (none, w)
  | fuel + 1, page, acc, w =>
    let w1 := w.get (url page)
    match httpGet (url page) with
    | .error err => (some [], w1.println ("Error: ".toList ++ err))
    | .ok body =>
      match decode body with
      | .error err => (some [], w1.println ("Error: ".toList ++ err))
      | .ok results =>
        let acc1 := acc ++ results
        if results.length = 0 then (some acc1, w1)
        else fetchPages httpGet decode url fuel (wrapInt64 (page + 1)) acc1 w1

/-- The function `getCharacters`. -/
def getCharacters (env : Env) (fuel : Nat) (filter : Filter) (w : World) :
    Option (List Character) × World :=
  fetchPages env.httpGet env.decodeCharacters (characterURL filter) fuel 1 [] w

/-- The function `getEpisodes`. -/
def getEpisodes (env : Env) (fuel : Nat) (w : World) :
    Option (List Episode) × World :=
  fetchPages env.httpGet env.decodeEpisodes episodeURL fuel 1 [] w

/-- The function `getLocations`. -/
def getLocations (env : Env) (fuel : Nat) (filter : Filter) (w : World) :
    Option (List Location) × World :=
  fetchPages env.httpGet env.decodeLocations (locationURL filter) fuel 1 [] w

/-! ## The appearances count (lines 189-210) -/

/-- The test of line 196:
`strings.Contains(url, fmt.Sprintf("/character/%d", character.ID))`. -/
def refMatches (url : Str) (character : Character) : Bool :=
  Contains url ("/character/".toList ++ fmtInt character.ID)

/-- The innermost loop (lines 195-200): the value of `found` after ranging over
the characters, starting from `found = false`. -/
def foundAmong (url : Str) : List Character → Bool
  | [] => false
  | character :: rest => if refMatches url character then true else foundAmong url rest

/-- The loop over the references of one episode (lines 194-205): the value of
`found` when the loop is left. -/
def foundIn (characters : List Character) : List Str → Bool
  | [] => false
  | url :: rest => if foundAmong url characters then true else foundIn characters rest

/-- The loop over the episodes (lines 191-210), from the current `count`. -/
def countLoop (characters : List Character) : List Episode → Nat → Nat
  | [], count => count
  | episode :: rest, count =>
    if foundIn characters episode.Characters then countLoop characters rest (count + 1)
    else countLoop characters rest count

/-- The count computed by the appearances command: `count := 0` followed by
the loop. -/
def appearancesCount (characters : List Character) (episodes : List Episode) : Nat :=
  countLoop characters episodes 0

/-! ## The commands (lines 170-215, 227-256, 273-302) -/

/-- How an action ended: it returned, it stopped in a run-time panic, or the
fuel given to a fetch ran out.  What a panicking process writes to standard
error is not part of `World`. -/
inductive Status where
  | returned
  | panicked
  | outOfFuel
deriving DecidableEq, Repr

/-- The `Action` of the `appearances` command; `filter` is the value of the
`--filter` flag. -/
def appearancesAction (env : Env) (fuel : Nat) (filter : Str) (w : World) :
    Status × World :=
  if filter = [] then (Status.returned, w.println "Please provide a filter".toList)
  else
    match splitFilter filter with
    | none => (Status.panicked, w)
    | some f =>
      match getCharacters env fuel f w with
      | (none, w1) => (Status.outOfFuel, w1)
      | (some characters, w1) =>
        match getEpisodes env fuel w1 with
        | (none, w2) => (Status.outOfFuel, w2)
        | (some episodes, w2) =>
          let w3 := w2.println (fmtInt episodes.length)
          let count := appearancesCount characters episodes
          (Status.returned, w3.println ("Count: ".toList ++ fmtInt count))

/-- The row added to the table for one character (line 250). -/
def characterRow (c : Character) : List Str :=
  [fmtInt c.ID, c.Name, c.Species, c.Status, c.Gender, c.Type_]

/-- What the `characters` command does with the fetched slice (lines
241-255). -/
def showCharacters (count : Bool) (characters : List Character) (w : World) : World :=
  if count then w.println ("Count: ".toList ++ fmtInt characters.length)
  else
    w.printTable
      ["ID".toList, "Name".toList, "Species".toList, "Status".toList, "Gender".toList,
        "Type".toList]
      (characters.map characterRow)

/-- The `Action` of the `characters` command; `count` and `filter` are the
values of the flags. -/
def charactersAction (env : Env) (fuel : Nat) (count : Bool) (filter : Str) (w : World) :
    Status × World :=
  if filter = [] then
    match getCharacters env fuel ⟨[], []⟩ w with
    | (none, w1) => (Status.outOfFuel, w1)
    | (some characters, w1) => (Status.returned, showCharacters count characters w1)
  else
    match splitFilter filter with
    | none => (Status.panicked, w)
    | some f =>
      match getCharacters env fuel f w with
      | (none, w1) => (Status.outOfFuel, w1)
      | (some characters, w1) => (Status.returned, showCharacters count characters w1)

/-- The row added to the table for one location (line 296). -/
def locationRow (l : Location) : List Str :=
  [fmtInt l.ID, l.Name]

/-- What the `locations` command does with the fetched slice (lines
287-301). -/
def showLocations (count : Bool) (locations : List Location) (w : World) : World :=
  if count then w.println ("Count: ".toList ++ fmtInt locations.length)
  else w.printTable ["ID".toList, "Name".toList] (locations.map locationRow)

/-- The `Action` of the `locations` command. -/
def locationsAction (env : Env) (fuel : Nat) (count : Bool) (filter : Str) (w : World) :
    Status × World :=
  if filter = [] then
    match getLocations env fuel ⟨[], []⟩ w with
    | (none, w1) => (Status.outOfFuel, w1)
    | (some locations, w1) => (Status.returned, showLocations count locations w1)
  else
    match splitFilter filter with
    | none => (Status.panicked, w)
    | some f =>
      match getLocations env fuel f w with
      | (none, w1) => (Status.outOfFuel, w1)
      | (some locations, w1) => (Status.returned, showLocations count locations w1)

/-! ## Vocabulary for the statements -/

/-- The three resource kinds. -/
inductive Kind where
  | character
  | episode
  | location
deriving DecidableEq, Repr

/-- The entity type of a resource kind. -/
def Kind.Entity : Kind → Type
  | Kind.character => Character
  | Kind.episode => Episode
  | Kind.location => Location

/-- The fetcher of a resource kind (`getEpisodes` takes no filter). -/
def fetchAll (env : Env) (fuel : Nat) (kind : Kind) (filter : Filter) (w : World) :
    Option (List kind.Entity) × World :=
  match kind with
  | Kind.character => getCharacters env fuel filter w
  | Kind.episode => getEpisodes env fuel w
  | Kind.location => getLocations env fuel filter w

/-- The URL a fetcher requests for a page. -/
def pageURL (kind : Kind) (filter : Filter) (page : Int) : Str :=
  match kind with
  | Kind.character => characterURL filter page
  | Kind.episode => episodeURL page
  | Kind.location => locationURL filter page

/-- What requesting a URL and decoding the response gives: the error message of
the transport or of the decoder, or the decoded `results`. -/
def getAndDecode {α : Type} (httpGet : Str → Except Str Str)
    (decode : Str → Except Str (List α)) (url : Str) : Except Str (List α) :=
  match httpGet url with
  | .error err => .error err
  | .ok body => decode body

/-- The page source seen by the fetcher of a kind: the outcome of page `page`. -/
def pageOutcome (env : Env) (kind : Kind) (filter : Filter) (page : Int) :
    Except Str (List kind.Entity) :=
  match kind with
  | Kind.character => getAndDecode env.httpGet env.decodeCharacters (characterURL filter page)
  | Kind.episode => getAndDecode env.httpGet env.decodeEpisodes (episodeURL page)
  | Kind.location => getAndDecode env.httpGet env.decodeLocations (locationURL filter page)

/-- The entities of a page outcome, none for a failed page. -/
def itemsOf {α : Type} : Except Str (List α) → List α
  | .error _ => []
  | .ok items => items

/-- The pages `first, first + 1, ..., first + n - 1`. -/
def pagesFrom (first n : Nat) : List Int :=
  (List.range' first n).map (fun p => (p : Int))

/-- The successive values of the loop variable `page`: `n` values from `page`
on, each the 64-bit increment of the one before. -/
def pageSeq : Nat → Int → List Int
  | 0, _ => []
  | n + 1, page => page :: pageSeq n (wrapInt64 (page + 1))

/-- The decimal number written by a string of digits, if it is one. -/
def parseDecimal (s : Str) : Option Nat :=
  if s ≠ [] ∧ s.all Char.isDigit = true then
    some (s.foldl (fun n c => 10 * n + (c.toNat - 48)) 0)
  else none

/-- The character id a reference encodes as its trailing path segment: the
decimal number after the last `/`. -/
def trailingId (ref : Str) : Option Nat :=
  match (Split ref '/').getLast? with
  | none => none
  | some segment => parseDecimal segment

/-- The set of the ids of the given characters, as a duplicate-free list. -/
def characterIdSet (characters : List Character) : List Int :=
  (characters.map (fun c => c.ID)).dedup

/-- The set-based correlator of the specification: build the set of character
ids once, then count the episodes with at least one reference whose embedded
trailing id is a member of that set. -/
def setCorrelator (characters : List Character) (episodes : List Episode) : Nat :=
  let ids := characterIdSet characters
  episodes.countP (fun e =>
    e.Characters.any (fun ref =>
      match trailingId ref with
      | none => false
      | some n => decide ((n : Int) ∈ ids)))

/-- The page source of a kind fails at page `j` with the message `msg`, the
pages `1 .. j-1` having succeeded with non-empty results. -/
def FailsAt (env : Env) (kind : Kind) (filter : Filter) (j : Nat) (msg : Str) : Prop :=
  1 ≤ j ∧ j < 2 ^ 63 ∧
    (∀ i : Nat, 1 ≤ i → i < j →
      ∃ items, pageOutcome env kind filter i = .ok items ∧ items ≠ []) ∧
    pageOutcome env kind filter j = .error msg

/-- The world after a fetch of a kind that failed at page `j`: the pages
`1 .. j` were requested and the error was printed. -/
def afterFailure (w : World) (kind : Kind) (filter : Filter) (j : Nat) (msg : Str) : World :=
  ⟨w.requests ++ (pagesFrom 1 j).map (pageURL kind filter),
    w.stdout ++ [Out.line ("Error: ".toList ++ msg)]⟩

/-- The text before the first `=`. -/
def beforeFirstEq (raw : Str) : Str :=
  raw.takeWhile (fun c => c != '=')

/-- All of the text after the first `=`. -/
def afterFirstEq (raw : Str) : Str :=
  (raw.dropWhile (fun c => c != '=')).drop 1

/-! ## Sample data -/

/-- A world in which nothing has happened yet. -/
def w0 : World := ⟨[], []⟩

/-- A character with id 1. -/
def rick : Character :=
  ⟨"Male".toList, 1, "Rick Sanchez".toList, "Human".toList, "Alive".toList, []⟩

/-- A character with id 2. -/
def morty : Character :=
  ⟨"Male".toList, 2, "Morty Smith".toList, "Human".toList, "Alive".toList, []⟩

/-- A mock upstream with two pages of characters: page 1 of the unfiltered
listing holds two items, every other page of every listing is empty. -/
def twoPageEnv : Env :=
  ⟨fun url => if url = characterURL ⟨[], []⟩ 1 then .ok "two".toList else .ok "none".toList,
    fun body => if body = "two".toList then .ok [rick, morty] else .ok [],
    fun _ => .ok [],
    fun _ => .ok []⟩

/-- A mock upstream that serves page 1 of the unfiltered character listing and
refuses every other request. -/
def secondPageDownEnv : Env :=
  ⟨fun url => if url = characterURL ⟨[], []⟩ 1 then .ok "two".toList
      else .error "connection refused".toList,
    fun body => if body = "two".toList then .ok [rick, morty] else .ok [],
    fun _ => .ok [],
    fun _ => .ok []⟩

/-- A mock upstream that refuses every request. -/
def downEnv : Env :=
  ⟨fun _ => .error "connection refused".toList, fun _ => .ok [], fun _ => .ok [],
    fun _ => .ok []⟩

/-- Episode 10, with references to the characters 1 and 3. -/
def episode10 : Episode :=
  ⟨["/character/1".toList, "/character/3".toList], 10, []⟩

/-- Episode 11, with a reference to the character 5. -/
def episode11 : Episode :=
  ⟨["/character/5".toList], 11, []⟩

/-- An episode whose only reference is to the character 12. -/
def episode12 : Episode :=
  ⟨["/character/12".toList], 12, []⟩

/-! ## Lemmas on the fetch loop -/

theorem wrapInt64_succ (p : Nat) (h : p + 1 < 2 ^ 63) :
    wrapInt64 ((p : Int) + 1) = ((p + 1 : Nat) : Int) := by
  unfold wrapInt64
  have h1 : (0 : Int) ≤ (p : Int) + 1 + 2 ^ 63 := by positivity
  have h2 : (p : Int) + 1 + 2 ^ 63 < 2 ^ 64 := by
    have : ((p + 1 : Nat) : Int) < 2 ^ 63 := by exact_mod_cast h
    push_cast at this
    linarith
  rw [Int.emod_eq_of_lt h1 h2]
  push_cast
  ring

theorem pagesFrom_succ (p n : Nat) :
    pagesFrom p (n + 1) = (p : Int) :: pagesFrom (p + 1) n := by
  simp [pagesFrom, List.range'_succ]

theorem fetchPages_succ {α : Type} (httpGet : Str → Except Str Str)
    (decode : Str → Except Str (List α)) (url : Int → Str)
    (fuel : Nat) (page : Int) (acc : List α) (w : World) :
    fetchPages httpGet decode url (fuel + 1) page acc w =
      match getAndDecode httpGet decode (url page) with
      | .error err => (some [], (w.get (url page)).println ("Error: ".toList ++ err))
      | .ok results =>
        if results.length = 0 then (some (acc ++ results), w.get (url page))
        else fetchPages httpGet decode url fuel (wrapInt64 (page + 1)) (acc ++ results)
          (w.get (url page)) := by
  simp only [fetchPages, getAndDecode]
  cases httpGet (url page) with
  | error e => rfl
  | ok body =>
    cases decode body with
    | error e => rfl
    | ok results => rfl

/-- The loop started at page `p` with `n` good non-empty pages ahead and then
an empty page: it requests exactly the `n + 1` pages and returns the
accumulator extended by the `n` pages in order. -/
theorem fetchPages_stops {α : Type} (httpGet : Str → Except Str Str)
    (decode : Str → Except Str (List α)) (url : Int → Str) (n : Nat) :
    ∀ (p : Nat) (acc : List α) (w : World) (fuel : Nat),
      p + n < 2 ^ 63 →
      (∀ i : Nat, p ≤ i → i < p + n →
        ∃ items, getAndDecode httpGet decode (url i) = .ok items ∧ items ≠ []) →
      getAndDecode httpGet decode (url ((p + n : Nat) : Int)) = .ok [] →
      n + 1 ≤ fuel →
      fetchPages httpGet decode url fuel p acc w =
        (some (acc ++ (pagesFrom p n).flatMap
            (fun q => itemsOf (getAndDecode httpGet decode (url q)))),
          ⟨w.requests ++ (pagesFrom p (n + 1)).map url, w.stdout⟩) := by
  induction n with
  | zero =>
    intro p acc w fuel _ _ hlast hfuel
    obtain ⟨f, rfl⟩ : ∃ f, fuel = f + 1 := ⟨fuel - 1, by omega⟩
    rw [fetchPages_succ]
    simp only [Nat.add_zero] at hlast
    rw [hlast]
    simp [pagesFrom, World.get]
  | succ n ih =>
    intro p acc w fuel hlt hok hlast hfuel
    obtain ⟨f, rfl⟩ : ∃ f, fuel = f + 1 := ⟨fuel - 1, by omega⟩
    obtain ⟨items, hitems, hne⟩ := hok p (Nat.le_refl p) (by omega)
    rw [fetchPages_succ, hitems]
    have hlen : ¬ items.length = 0 := by
      intro h
      exact hne (List.length_eq_zero.mp h)
    simp only [hlen, if_false]
    rw [wrapInt64_succ p (by omega)]
    rw [ih (p + 1) (acc ++ items) (w.get (url p)) f (by omega)
      (fun i h1 h2 => hok i (by omega) (by omega))
      (by rw [show p + 1 + n = p + (n + 1) by omega]; exact hlast) (by omega)]
    rw [pagesFrom_succ p n, pagesFrom_succ p (n + 1)]
    simp [World.get, hitems, itemsOf]

/-- The loop started at page `p` with `n` good non-empty pages ahead and then
a failing page: it requests exactly the `n + 1` pages, prints the error and
returns `nil`. -/
theorem fetchPages_fails {α : Type} (httpGet : Str → Except Str Str)
    (decode : Str → Except Str (List α)) (url : Int → Str) (msg : Str) (n : Nat) :
    ∀ (p : Nat) (acc : List α) (w : World) (fuel : Nat),
      p + n < 2 ^ 63 →
      (∀ i : Nat, p ≤ i → i < p + n →
        ∃ items, getAndDecode httpGet decode (url i) = .ok items ∧ items ≠ []) →
      getAndDecode httpGet decode (url ((p + n : Nat) : Int)) = .error msg →
      n + 1 ≤ fuel →
      fetchPages httpGet decode url fuel p acc w =
        (some [],
          ⟨w.requests ++ (pagesFrom p (n + 1)).map url,
            w.stdout ++ [Out.line ("Error: ".toList ++ msg)]⟩) := by
  induction n with
  | zero =>
    intro p acc w fuel _ _ hlast hfuel
    obtain ⟨f, rfl⟩ : ∃ f, fuel = f + 1 := ⟨fuel - 1, by omega⟩
    rw [fetchPages_succ]
    simp only [Nat.add_zero] at hlast
    rw [hlast]
    simp [pagesFrom, World.get, World.println]
  | succ n ih =>
    intro p acc w fuel hlt hok hlast hfuel
    obtain ⟨f, rfl⟩ : ∃ f, fuel = f + 1 := ⟨fuel - 1, by omega⟩
    obtain ⟨items, hitems, hne⟩ := hok p (Nat.le_refl p) (by omega)
    rw [fetchPages_succ, hitems]
    have hlen : ¬ items.length = 0 := by
      intro h
      exact hne (List.length_eq_zero.mp h)
    simp only [hlen, if_false]
    rw [wrapInt64_succ p (by omega)]
    rw [ih (p + 1) (acc ++ items) (w.get (url p)) f (by omega)
      (fun i h1 h2 => hok i (by omega) (by omega))
      (by rw [show p + 1 + n = p + (n + 1) by omega]; exact hlast) (by omega)]
    rw [pagesFrom_succ p (n + 1)]
    simp [World.get]

/-- Whatever the server answers and however much fuel there is, the requests
of the loop are the URLs of the successive values of `page`. -/
theorem fetchPages_requests {α : Type} (httpGet : Str → Except Str Str)
    (decode : Str → Except Str (List α)) (url : Int → Str) (fuel : Nat) :
    ∀ (page : Int) (acc : List α) (w : World),
      ∃ n, n ≤ fuel ∧
        (fetchPages httpGet decode url fuel page acc w).2.requests =
          w.requests ++ (pageSeq n page).map url := by
  induction fuel with
  | zero =>
    intro page acc w
    exact ⟨0, Nat.le_refl 0, by simp [fetchPages, pageSeq]⟩
  | succ f ih =>
    intro page acc w
    rw [fetchPages_succ]
    cases hres : getAndDecode httpGet decode (url page) with
    | error e => exact ⟨1, by omega, by simp [pageSeq, World.get, World.println]⟩
    | ok results =>
      by_cases hlen : results.length = 0
      · exact ⟨1, by omega, by simp [hlen, pageSeq, World.get]⟩
      · obtain ⟨n, hn, hreq⟩ := ih (wrapInt64 (page + 1)) (acc ++ results) (w.get (url page))
        refine ⟨n + 1, by omega, ?_⟩
        simp only [hlen, if_false]
        rw [hreq]
        simp [pageSeq, World.get]

/-- With fuel for at least one iteration the loop requests the URL of its
first page before anything else. -/
theorem fetchPages_first_request {α : Type} (httpGet : Str → Except Str Str)
    (decode : Str → Except Str (List α)) (url : Int → Str) (fuel : Nat)
    (page : Int) (acc : List α) (w : World) :
    ∃ rest, (fetchPages httpGet decode url (fuel + 1) page acc w).2.requests =
      w.requests ++ url page :: rest := by
  rw [fetchPages_succ]
  cases hres : getAndDecode httpGet decode (url page) with
  | error e => exact ⟨[], by simp [World.get, World.println]⟩
  | ok results =>
    by_cases hlen : results.length = 0
    · exact ⟨[], by simp [hlen, World.get]⟩
    · obtain ⟨n, _, hreq⟩ := fetchPages_requests httpGet decode url fuel
        (wrapInt64 (page + 1)) (acc ++ results) (w.get (url page))
      refine ⟨(pageSeq n (wrapInt64 (page + 1))).map url, ?_⟩
      simp only [hlen, if_false]
      rw [hreq]
      simp [World.get]

/-! ## Lemmas on `Split` -/

theorem Split_of_not_mem (sep : Char) (s : Str) (h : sep ∉ s) : Split s sep = [s] := by
  induction s with
  | nil => rfl
  | cons c cs ih =>
    have hc : ¬ c = sep := fun e => h (by simp [e])
    have hcs : sep ∉ cs := fun e => h (List.mem_cons_of_mem c e)
    simp [Split, hc, ih hcs]

theorem Split_of_mem (sep : Char) (s : Str) (h : sep ∈ s) :
    Split s sep = s.takeWhile (fun c => c != sep) ::
      Split ((s.dropWhile (fun c => c != sep)).drop 1) sep := by
  induction s with
  | nil => simp at h
  | cons c cs ih =>
    by_cases hc : c = sep
    · subst hc
      simp [Split, List.takeWhile, List.dropWhile]
    · have hcs : sep ∈ cs := by
        rcases List.mem_cons.mp h with e | e
        · exact absurd e.symm hc
        · exact e
      have hne : (c != sep) = true := by simpa using hc
      simp [Split, hc, ih hcs, List.takeWhile, List.dropWhile, hne]

theorem Split_head (sep : Char) (s : Str) :
    (Split s sep)[0]? = some (s.takeWhile (fun c => c != sep)) := by
  by_cases h : sep ∈ s
  · rw [Split_of_mem sep s h]
    simp
  · rw [Split_of_not_mem sep s h]
    have : s.takeWhile (fun c => c != sep) = s := by
      rw [List.takeWhile_eq_self_iff]
      intro c hc
      have : c ≠ sep := fun e => h (e ▸ hc)
      simpa using this
    simp [this]

theorem splitFilter_of_mem (raw : Str) (h : '=' ∈ raw) :
    splitFilter raw = some ⟨beforeFirstEq raw, beforeFirstEq (afterFirstEq raw)⟩ := by
  have h1 := Split_head '=' (afterFirstEq raw)
  unfold afterFirstEq at h1
  simp only [splitFilter, Split_of_mem '=' raw h, List.getElem?_cons_zero,
    List.getElem?_cons_succ]
  rw [h1]
  rfl

theorem splitFilter_of_not_mem (raw : Str) (h : '=' ∉ raw) : splitFilter raw = none := by
  simp [splitFilter, Split_of_not_mem '=' raw h]

/-! ## Lemmas on the commands and on the count -/

theorem getCharacters_of_failsAt (env : Env) (fuel : Nat) (filter : Filter) (w : World)
    (j : Nat) (msg : Str) (h : FailsAt env Kind.character filter j msg) (hfuel : j ≤ fuel) :
    getCharacters env fuel filter w = (some [], afterFailure w Kind.character filter j msg) := by
  obtain ⟨hj, hj64, hgood, hfail⟩ := h
  obtain ⟨n, rfl⟩ : ∃ n, j = 1 + n := ⟨j - 1, by omega⟩
  have h := fetchPages_fails env.httpGet env.decodeCharacters (characterURL filter) msg n 1
    [] w fuel hj64 (fun i h1 h2 => hgood i h1 h2) hfail (by omega)
  rw [show n + 1 = 1 + n by omega] at h
  exact h

theorem getLocations_of_failsAt (env : Env) (fuel : Nat) (filter : Filter) (w : World)
    (j : Nat) (msg : Str) (h : FailsAt env Kind.location filter j msg) (hfuel : j ≤ fuel) :
    getLocations env fuel filter w = (some [], afterFailure w Kind.location filter j msg) := by
  obtain ⟨hj, hj64, hgood, hfail⟩ := h
  obtain ⟨n, rfl⟩ : ∃ n, j = 1 + n := ⟨j - 1, by omega⟩
  have h := fetchPages_fails env.httpGet env.decodeLocations (locationURL filter) msg n 1
    [] w fuel hj64 (fun i h1 h2 => hgood i h1 h2) hfail (by omega)
  rw [show n + 1 = 1 + n by omega] at h
  exact h

theorem showCharacters_requests (count : Bool) (cs : List Character) (w : World) :
    (showCharacters count cs w).requests = w.requests := by
  cases count <;> rfl

theorem showLocations_requests (count : Bool) (ls : List Location) (w : World) :
    (showLocations count ls w).requests = w.requests := by
  cases count <;> rfl

theorem foundAmong_iff (url : Str) (cs : List Character) :
    foundAmong url cs = true ↔ ∃ c ∈ cs, refMatches url c = true := by
  induction cs with
  | nil => simp [foundAmong]
  | cons c rest ih =>
    by_cases h : refMatches url c = true
    · simp [foundAmong, h]
    · simp [foundAmong, h, ih]

theorem foundIn_iff (cs : List Character) (urls : List Str) :
    foundIn cs urls = true ↔ ∃ url ∈ urls, ∃ c ∈ cs, refMatches url c = true := by
  induction urls with
  | nil => simp [foundIn]
  | cons u rest ih =>
    simp only [foundIn]
    by_cases h : foundAmong u cs = true
    · have h2 := (foundAmong_iff u cs).mp h
      rw [if_pos h]
      simp only [true_iff]
      exact ⟨u, List.mem_cons_self u rest, h2⟩
    · have h2 : ¬ ∃ c ∈ cs, refMatches u c = true := fun e => h ((foundAmong_iff u cs).mpr e)
      rw [if_neg h, ih]
      constructor
      · rintro ⟨url, hmem, hc⟩
        exact ⟨url, List.mem_cons_of_mem u hmem, hc⟩
      · rintro ⟨url, hmem, hc⟩
        rcases List.mem_cons.mp hmem with e | e
        · subst e
          exact absurd hc h2
        · exact ⟨url, e, hc⟩

theorem countLoop_eq (cs : List Character) (episodes : List Episode) :
    ∀ count : Nat, countLoop cs episodes count =
      count + episodes.countP (fun e => foundIn cs e.Characters) := by
  induction episodes with
  | nil => intro count; simp [countLoop]
  | cons e rest ih =>
    intro count
    by_cases h : foundIn cs e.Characters = true
    · simp [countLoop, h, ih, List.countP_cons]
      omega
    · simp [countLoop, h, ih, List.countP_cons]

theorem foundIn_no_characters (urls : List Str) : foundIn [] urls = false := by
  induction urls with
  | nil => rfl
  | cons u rest ih => simp [foundIn, foundAmong, ih]

theorem countLoop_no_characters (episodes : List Episode) :
    ∀ count : Nat, countLoop [] episodes count = count := by
  induction episodes with
  | nil => intro count; rfl
  | cons e rest ih =>
    intro count
    simp [countLoop, foundIn_no_characters, ih]

/-! ## The fetchers -/

/-- C1: for every resource kind, filter and page source in which `k ≥ 1` is the
first page with an empty result list and the pages `1 .. k-1` fetch and decode
successfully, the fetcher (given fuel for `k` iterations) returns, requests
exactly the pages `1, 2, ..., k` in that order, writes nothing, and returns the
results of the pages `1 .. k-1` concatenated in page order. -/
theorem fetchAll_pages_until_empty (env : Env) (kind : Kind) (filter : Filter) (w : World)
    (k fuel : Nat) (hk : 1 ≤ k) (hk64 : k < 2 ^ 63)
    (hgood : ∀ i : Nat, 1 ≤ i → i < k →
      ∃ items, pageOutcome env kind filter i = .ok items ∧ items ≠ [])
    (hempty : pageOutcome env kind filter k = .ok [])
    (hfuel : k ≤ fuel) :
    fetchAll env fuel kind filter w =
      (some ((pagesFrom 1 (k - 1)).flatMap (fun p => itemsOf (pageOutcome env kind filter p))),
        ⟨w.requests ++ (pagesFrom 1 k).map (pageURL kind filter), w.stdout⟩) := by
  obtain ⟨n, rfl⟩ : ∃ n, k = 1 + n := ⟨k - 1, by omega⟩
  have hn : 1 + n - 1 = n := by omega
  rw [hn]
  cases kind with
  | character =>
    have h := fetchPages_stops env.httpGet env.decodeCharacters (characterURL filter) n 1 [] w
      fuel hk64 (fun i h1 h2 => hgood i h1 h2) hempty (by omega)
    rw [show n + 1 = 1 + n by omega] at h
    simpa using h
  | episode =>
    have h := fetchPages_stops env.httpGet env.decodeEpisodes episodeURL n 1 [] w
      fuel hk64 (fun i h1 h2 => hgood i h1 h2) hempty (by omega)
    rw [show n + 1 = 1 + n by omega] at h
    simpa using h
  | location =>
    have h := fetchPages_stops env.httpGet env.decodeLocations (locationURL filter) n 1 [] w
      fuel hk64 (fun i h1 h2 => hgood i h1 h2) hempty (by omega)
    rw [show n + 1 = 1 + n by omega] at h
    simpa using h

/-- C1, the scenario of the specification: page 1 holds two characters and
page 2 none; the fetch requests pages 1 and 2 and returns the two characters of
page 1. -/
theorem fetchAll_pages_until_empty_witness :
    fetchAll twoPageEnv 2 Kind.character ⟨[], []⟩ w0 =
      (some [rick, morty],
        ⟨["https://rickandmortyapi.com/api/character/?page=1".toList,
            "https://rickandmortyapi.com/api/character/?page=2".toList], []⟩) :=
  (fetchAll_pages_until_empty twoPageEnv Kind.character ⟨[], []⟩ w0 2 2 (by decide)
    (by decide)
    (fun i h1 h2 => by
      obtain rfl : i = 1 := by omega
      exact ⟨[rick, morty], rfl, List.cons_ne_nil _ _⟩)
    rfl (by decide)).trans rfl

/-- C5: for every resource kind and page source in which page `j` fails (in
transport or in decoding) after the pages `1 .. j-1` succeeded with non-empty
results, the fetcher (given fuel for `j` iterations) requests the pages
`1 .. j` and no page after `j`, prints the error, and returns `nil`: none of
the entities of the pages `1 .. j-1`. -/
theorem fetchAll_fail_fast (env : Env) (kind : Kind) (filter : Filter) (w : World)
    (j fuel : Nat) (msg : Str) (hj : 1 ≤ j) (hj64 : j < 2 ^ 63)
    (hgood : ∀ i : Nat, 1 ≤ i → i < j →
      ∃ items, pageOutcome env kind filter i = .ok items ∧ items ≠ [])
    (hfail : pageOutcome env kind filter j = .error msg)
    (hfuel : j ≤ fuel) :
    fetchAll env fuel kind filter w =
      (some [],
        ⟨w.requests ++ (pagesFrom 1 j).map (pageURL kind filter),
          w.stdout ++ [Out.line ("Error: ".toList ++ msg)]⟩) := by
  obtain ⟨n, rfl⟩ : ∃ n, j = 1 + n := ⟨j - 1, by omega⟩
  cases kind with
  | character =>
    have h := fetchPages_fails env.httpGet env.decodeCharacters (characterURL filter) msg n 1
      [] w fuel hj64 (fun i h1 h2 => hgood i h1 h2) hfail (by omega)
    rw [show n + 1 = 1 + n by omega] at h
    simpa using h
  | episode =>
    have h := fetchPages_fails env.httpGet env.decodeEpisodes episodeURL msg n 1
      [] w fuel hj64 (fun i h1 h2 => hgood i h1 h2) hfail (by omega)
    rw [show n + 1 = 1 + n by omega] at h
    simpa using h
  | location =>
    have h := fetchPages_fails env.httpGet env.decodeLocations (locationURL filter) msg n 1
      [] w fuel hj64 (fun i h1 h2 => hgood i h1 h2) hfail (by omega)
    rw [show n + 1 = 1 + n by omega] at h
    simpa using h

/-- C5 at a concrete upstream: page 1 holds two characters and page 2 is
refused; pages 1 and 2 are requested and the two characters are not returned. -/
theorem fetchAll_fail_fast_witness :
    fetchAll secondPageDownEnv 5 Kind.character ⟨[], []⟩ w0 =
      (some [],
        ⟨["https://rickandmortyapi.com/api/character/?page=1".toList,
            "https://rickandmortyapi.com/api/character/?page=2".toList],
          [Out.line "Error: connection refused".toList]⟩) :=
  (fetchAll_fail_fast secondPageDownEnv Kind.character ⟨[], []⟩ w0 2 5
    "connection refused".toList (by decide) (by decide)
    (fun i h1 h2 => by
      obtain rfl : i = 1 := by omega
      exact ⟨[rick, morty], rfl, List.cons_ne_nil _ _⟩)
    rfl (by decide)).trans rfl

/-- C8: for a filter with a non-empty key, the requests of `getCharacters` and
of `getLocations` are, for the successive values `p` of the page counter, the
listing URL followed by `?page=p&key=value` with the key and the value of the
filter unmodified, the same on every page; with no filter (`Filter{}`) they
carry the page parameter only. -/
theorem filter_passthrough (env : Env) (fuel : Nat) (filter : Filter) (w : World)
    (hkey : filter.Key ≠ []) :
    (∃ n, n ≤ fuel ∧ (getCharacters env fuel filter w).2.requests =
      w.requests ++ (pageSeq n 1).map (fun p =>
        "https://rickandmortyapi.com/api/character/?page=".toList ++ fmtInt p
          ++ "&".toList ++ filter.Key ++ "=".toList ++ filter.Value)) ∧
    (∃ n, n ≤ fuel ∧ (getLocations env fuel filter w).2.requests =
      w.requests ++ (pageSeq n 1).map (fun p =>
        "https://rickandmortyapi.com/api/location/?page=".toList ++ fmtInt p
          ++ "&".toList ++ filter.Key ++ "=".toList ++ filter.Value)) ∧
    (∃ n, n ≤ fuel ∧ (getCharacters env fuel ⟨[], []⟩ w).2.requests =
      w.requests ++ (pageSeq n 1).map (fun p =>
        "https://rickandmortyapi.com/api/character/?page=".toList ++ fmtInt p)) ∧
    (∃ n, n ≤ fuel ∧ (getLocations env fuel ⟨[], []⟩ w).2.requests =
      w.requests ++ (pageSeq n 1).map (fun p =>
        "https://rickandmortyapi.com/api/location/?page=".toList ++ fmtInt p)) := by
  have hc : characterURL filter = fun p =>
      "https://rickandmortyapi.com/api/character/?page=".toList ++ fmtInt p
        ++ "&".toList ++ filter.Key ++ "=".toList ++ filter.Value := by
    funext p
    simp only [characterURL, hkey, if_false]
  have hl : locationURL filter = fun p =>
      "https://rickandmortyapi.com/api/location/?page=".toList ++ fmtInt p
        ++ "&".toList ++ filter.Key ++ "=".toList ++ filter.Value := by
    funext p
    simp only [locationURL, hkey, if_false]
  have hc0 : characterURL ⟨[], []⟩ = fun p =>
      "https://rickandmortyapi.com/api/character/?page=".toList ++ fmtInt p := by
    funext p
    simp only [characterURL, if_true]
  have hl0 : locationURL ⟨[], []⟩ = fun p =>
      "https://rickandmortyapi.com/api/location/?page=".toList ++ fmtInt p := by
    funext p
    simp only [locationURL, if_true]
  refine ⟨?_, ?_, ?_, ?_⟩
  · rw [← hc]
    exact fetchPages_requests env.httpGet env.decodeCharacters (characterURL filter) fuel 1 [] w
  · rw [← hl]
    exact fetchPages_requests env.httpGet env.decodeLocations (locationURL filter) fuel 1 [] w
  · rw [← hc0]
    exact fetchPages_requests env.httpGet env.decodeCharacters (characterURL ⟨[], []⟩) fuel 1 [] w
  · rw [← hl0]
    exact fetchPages_requests env.httpGet env.decodeLocations (locationURL ⟨[], []⟩) fuel 1 [] w

/-- C8 at the filter `species=Robot`: the conclusion of the theorem holds for
the filter, whose key is not empty. -/
theorem filter_passthrough_witness :
    (⟨"species".toList, "Robot".toList⟩ : Filter).Key ≠ [] ∧
    ∃ n, n ≤ 3 ∧ (getCharacters downEnv 3 ⟨"species".toList, "Robot".toList⟩ w0).2.requests =
      w0.requests ++ (pageSeq n 1).map (fun p =>
        "https://rickandmortyapi.com/api/character/?page=".toList ++ fmtInt p
          ++ "&".toList ++ "species".toList ++ "=".toList ++ "Robot".toList) :=
  ⟨by decide,
    (filter_passthrough downEnv 3 ⟨"species".toList, "Robot".toList⟩ w0 (by decide)).1⟩

/-! ## Filter splitting -/

/-- C3, as the code has it: for every raw filter string that contains at least
one `=`, the split yields a filter whose key is the text before the first `=`
and whose value is the text between the first `=` and the next `=` (up to the
end of the string when there is no second one); so when the string holds
exactly one `=` the value is all of the text after it. -/
theorem splitFilter_first_two_parts (raw : Str) (h : '=' ∈ raw) :
    splitFilter raw = some ⟨beforeFirstEq raw, beforeFirstEq (afterFirstEq raw)⟩ ∧
    ('=' ∉ afterFirstEq raw →
      splitFilter raw = some ⟨beforeFirstEq raw, afterFirstEq raw⟩) := by
  refine ⟨splitFilter_of_mem raw h, fun h2 => ?_⟩
  rw [splitFilter_of_mem raw h]
  have : beforeFirstEq (afterFirstEq raw) = afterFirstEq raw := by
    unfold beforeFirstEq
    rw [List.takeWhile_eq_self_iff]
    intro c hc
    have : c ≠ '=' := fun e => h2 (e ▸ hc)
    simpa using this
  rw [this]

/-- C3 at `species=Robot`: key `species`, value `Robot`. -/
theorem splitFilter_first_two_parts_witness :
    splitFilter "species=Robot".toList = some ⟨"species".toList, "Robot".toList⟩ :=
  ((splitFilter_first_two_parts "species=Robot".toList (by decide)).2 (by decide)).trans rfl

/-- C3 as stated fails at `a=b=c`: the text after the first `=` is `b=c`, but
the value of the filter is `b`. -/
theorem splitFilter_drops_after_second_eq :
    '=' ∈ "a=b=c".toList ∧
    afterFirstEq "a=b=c".toList = "b=c".toList ∧
    splitFilter "a=b=c".toList = some ⟨"a".toList, "b".toList⟩ ∧
    splitFilter "a=b=c".toList ≠
      some ⟨beforeFirstEq "a=b=c".toList, afterFirstEq "a=b=c".toList⟩ := by
  decide

/-- C4, as the code has it: for every filter string with no `=`, a non-empty
one yields no filter and none of the three commands issues a fetch request;
the empty one is taken as "no filter given": `appearances` writes the line
`Please provide a filter` and requests nothing, while `characters` and
`locations` go on to the unfiltered fetch, whose first request is page 1 of the
plain listing. -/
theorem filter_without_equals (env : Env) (fuel : Nat) (count : Bool) (raw : Str) (w : World)
    (h : '=' ∉ raw) :
    (raw ≠ [] →
      splitFilter raw = none ∧
      (appearancesAction env fuel raw w).2.requests = w.requests ∧
      (charactersAction env fuel count raw w).2.requests = w.requests ∧
      (locationsAction env fuel count raw w).2.requests = w.requests) ∧
    (raw = [] →
      appearancesAction env fuel raw w =
        (Status.returned, w.println "Please provide a filter".toList) ∧
      (∃ rest, (charactersAction env (fuel + 1) count raw w).2.requests =
        w.requests ++ "https://rickandmortyapi.com/api/character/?page=1".toList :: rest) ∧
      (∃ rest, (locationsAction env (fuel + 1) count raw w).2.requests =
        w.requests ++ "https://rickandmortyapi.com/api/location/?page=1".toList :: rest)) := by
  constructor
  · intro hne
    have hs := splitFilter_of_not_mem raw h
    simp [appearancesAction, charactersAction, locationsAction, hne, hs]
  · intro he
    subst he
    refine ⟨rfl, ?_, ?_⟩
    · obtain ⟨rest, hrest⟩ := fetchPages_first_request env.httpGet env.decodeCharacters
        (characterURL ⟨[], []⟩) fuel 1 [] w
      refine ⟨rest, ?_⟩
      have hurl : characterURL ⟨[], []⟩ 1 =
          "https://rickandmortyapi.com/api/character/?page=1".toList := by decide
      rw [← hurl, ← hrest]
      simp only [charactersAction, if_true, getCharacters]
      rcases fetchPages env.httpGet env.decodeCharacters (characterURL ⟨[], []⟩) (fuel + 1) 1 []
        w with ⟨_ | cs, w1⟩
      · rfl
      · exact showCharacters_requests count cs w1
    · obtain ⟨rest, hrest⟩ := fetchPages_first_request env.httpGet env.decodeLocations
        (locationURL ⟨[], []⟩) fuel 1 [] w
      refine ⟨rest, ?_⟩
      have hurl : locationURL ⟨[], []⟩ 1 =
          "https://rickandmortyapi.com/api/location/?page=1".toList := by decide
      rw [← hurl, ← hrest]
      simp only [locationsAction, if_true, getLocations]
      rcases fetchPages env.httpGet env.decodeLocations (locationURL ⟨[], []⟩) (fuel + 1) 1 []
        w with ⟨_ | ls, w1⟩
      · rfl
      · exact showLocations_requests count ls w1

/-- C4 at `bad-input`: no filter and no fetch request. -/
theorem filter_without_equals_witness :
    '=' ∉ "bad-input".toList ∧
    splitFilter "bad-input".toList = none ∧
    (charactersAction twoPageEnv 2 false "bad-input".toList w0).2.requests = w0.requests :=
  ⟨by decide,
    ((filter_without_equals twoPageEnv 2 false "bad-input".toList w0 (by decide)).1
      (by decide)).1,
    ((filter_without_equals twoPageEnv 2 false "bad-input".toList w0 (by decide)).1
      (by decide)).2.2.1⟩

/-- C4 as stated fails: with the empty filter string the `characters` command
reports no error but fetches the unfiltered listing and prints it, and with
`bad-input` it stops in the index-out-of-range panic of `parts[1]`. -/
theorem filter_without_equals_not_reported :
    charactersAction twoPageEnv 2 false [] w0 =
      (Status.returned,
        ⟨["https://rickandmortyapi.com/api/character/?page=1".toList,
            "https://rickandmortyapi.com/api/character/?page=2".toList],
          [Out.table
            ["ID".toList, "Name".toList, "Species".toList, "Status".toList,
              "Gender".toList, "Type".toList]
            [["1".toList, "Rick Sanchez".toList, "Human".toList, "Alive".toList,
                "Male".toList, []],
              ["2".toList, "Morty Smith".toList, "Human".toList, "Alive".toList,
                "Male".toList, []]]]⟩) ∧
    (charactersAction twoPageEnv 2 false "bad-input".toList w0).1 = Status.panicked :=
  ⟨rfl, rfl⟩

/-! ## Errors and the commands -/

/-- C6, as the code has it: a fetch error ends the fetch in which it occurs, not
the command.  When the character fetch of a command fails at page `j`, the
`characters` command still returns normally and prints `Count: 0` (with
`--count`) or the table with no rows, and the `appearances` command still runs
the episode fetch and, once that returns, prints the number of episodes and
`Count: 0`; likewise the `locations` command after a failed location fetch. -/
theorem command_continues_after_fetch_error (env : Env) (fuel : Nat) (count : Bool)
    (raw : Str) (f : Filter) (w : World) (j : Nat) (msg : Str)
    (hraw : raw ≠ []) (hsplit : splitFilter raw = some f) (hfuel : j ≤ fuel) :
    (FailsAt env Kind.character f j msg →
      charactersAction env fuel count raw w =
        (Status.returned,
          if count then (afterFailure w Kind.character f j msg).println "Count: 0".toList
          else (afterFailure w Kind.character f j msg).printTable
            ["ID".toList, "Name".toList, "Species".toList, "Status".toList,
              "Gender".toList, "Type".toList] []) ∧
      ∀ (episodes : List Episode) (w2 : World),
        getEpisodes env fuel (afterFailure w Kind.character f j msg) = (some episodes, w2) →
        appearancesAction env fuel raw w =
          (Status.returned,
            (w2.println (fmtInt episodes.length)).println "Count: 0".toList)) ∧
    (FailsAt env Kind.location f j msg →
      locationsAction env fuel count raw w =
        (Status.returned,
          if count then (afterFailure w Kind.location f j msg).println "Count: 0".toList
          else (afterFailure w Kind.location f j msg).printTable
            ["ID".toList, "Name".toList] [])) := by
  refine ⟨fun hc => ⟨?_, ?_⟩, fun hl => ?_⟩
  · simp only [charactersAction, if_neg hraw, hsplit,
      getCharacters_of_failsAt env fuel f w j msg hc hfuel, showCharacters]
    cases count <;> rfl
  · intro episodes w2 hep
    simp only [appearancesAction, if_neg hraw, hsplit,
      getCharacters_of_failsAt env fuel f w j msg hc hfuel, hep, appearancesCount,
      countLoop_no_characters]
    rfl
  · simp only [locationsAction, if_neg hraw, hsplit,
      getLocations_of_failsAt env fuel f w j msg hl hfuel, showLocations]
    cases count <;> rfl

/-- C6 at an upstream that refuses every request: `characters --count` with the
filter `species=Robot` prints the error and then `Count: 0`. -/
theorem command_continues_after_fetch_error_witness :
    charactersAction downEnv 1 true "species=Robot".toList w0 =
      (Status.returned,
        ⟨["https://rickandmortyapi.com/api/character/?page=1&species=Robot".toList],
          [Out.line "Error: connection refused".toList, Out.line "Count: 0".toList]⟩) :=
  (((command_continues_after_fetch_error downEnv 1 true "species=Robot".toList
    ⟨"species".toList, "Robot".toList⟩ w0 1 "connection refused".toList
    (by decide) rfl (by decide)).1
    ⟨by decide, by decide, fun i h1 h2 => absurd h1 (by omega), rfl⟩).1).trans rfl

/-- C6 as stated fails: in the `appearances` command a failed character fetch
is followed by an episode fetch and by the printed counts. -/
theorem appearances_goes_on_after_error :
    appearancesAction downEnv 3 "species=Robot".toList w0 =
      (Status.returned,
        ⟨["https://rickandmortyapi.com/api/character/?page=1&species=Robot".toList,
            "https://rickandmortyapi.com/api/episode/?page=1".toList],
          [Out.line "Error: connection refused".toList,
            Out.line "Error: connection refused".toList,
            Out.line "0".toList,
            Out.line "Count: 0".toList]⟩) :=
  rfl

/-! ## The appearances count -/

/-- C7: for every list of characters and every list of episodes the count of
the appearances command is the number of episodes of the list with at least
one reference that passes the test of line 196 against at least one of the
characters: such an episode counts once, any other not at all. -/
theorem appearancesCount_counts_episodes (characters : List Character)
    (episodes : List Episode) :
    appearancesCount characters episodes =
      episodes.countP (fun e =>
        decide (∃ url ∈ e.Characters, ∃ c ∈ characters, refMatches url c = true)) := by
  unfold appearancesCount
  rw [countLoop_eq, Nat.zero_add]
  apply List.countP_congr
  intro e _
  simp only [decide_eq_true_eq]
  exact foundIn_iff characters e.Characters

/-- C7 at the example of the specification: characters 1 and 2, episode 10
with references to 1 and 3, episode 11 with a reference to 5; the count is 1. -/
theorem appearancesCount_counts_episodes_witness :
    appearancesCount [rick, morty] [episode10, episode11] = 1 :=
  (appearancesCount_counts_episodes [rick, morty] [episode10, episode11]).trans (by decide)

/-- C9: with the empty character list the count is 0, whatever the episodes
and their references. -/
theorem appearancesCount_no_characters (episodes : List Episode) :
    appearancesCount [] episodes = 0 :=
  countLoop_no_characters episodes 0

/-- C2 fails on the code: the reference `/character/12` encodes the id 12,
which is not 1, yet the test of line 196 accepts it for the character with id
1, and an episode with that single reference is counted for that character. -/
theorem refMatches_accepts_longer_id :
    trailingId "/character/12".toList = some 12 ∧
    rick.ID = 1 ∧
    refMatches "/character/12".toList rick = true ∧
    appearancesCount [rick] [episode12] = 1 := by
  decide

/-- C10 fails on the code: for the character with id 1 and an episode whose
only reference is `/character/12` the nested loops count 1 and the set-based
correlator counts 0. -/
theorem nested_loops_differ_from_set_correlator :
    appearancesCount [rick] [episode12] = 1 ∧ setCorrelator [rick] [episode12] = 0 := by
  decide

end Ricky
